import Mathlib

/-!
Verification of the CallingJournal repository against its natural-language
specification.

The repository is a React frontend prototype.  The components relevant to the
claims are embedded shallowly below:

* `ChatInterface` (src/unnamed/part_000): the chat transcript state and
  `handleSendMessage`, including the one-second delayed assistant reply that
  is scheduled with `setTimeout`.  Wall-clock reads (`new Date()`) and the
  random draw (`Math.random()`) are passed in as explicit parameters.
* `Calendar` (concatenated into src/frontend/src/App.jsx): the year calendar,
  `renderMonth` future-date guard, `handleDateClick`, the `journalEntries`
  set and the static `journalData` map.
* `AITalk` (src/frontend/src/AITalk.jsx): the word counter over the editor
  content and `handleEndCall`.
* The Embedding Index of spec section 4.5 has no implementation anywhere in
  the repository; it is modelled from the spec where a claim needs it.
-/

/-- The set of whitespace characters recognised by the JavaScript regular
expression class backslash-s and by `String.prototype.trim` (the core
ECMAScript WhiteSpace and LineTerminator characters). -/
def jsWhitespace (c : Char) : Bool :=
  c == ' ' || c == '\t' || c == '\n' || c == '\r' || c == '\x0b' ||
  c == '\x0c' || c == ' '

/-- JavaScript `String.prototype.trim` on a character list: remove leading and
trailing whitespace. -/
def jsTrimList (l : List Char) : List Char :=
  ((l.dropWhile jsWhitespace).reverse.dropWhile jsWhitespace).reverse

/-- JavaScript `String.prototype.trim`. -/
def jsTrim (s : String) : String :=
  ⟨jsTrimList s.data⟩

/-- Message role, `'user'` or `'assistant'` in the source. -/
inductive Role where
  | user
  | assistant
deriving DecidableEq

/-- One chat message as built by `ChatInterface`.  In the source, user
messages carry no `showSuggestions` field; an absent field is falsy in
JavaScript, so it is embedded as `false`. -/
structure Message where
  id : Nat
  role : Role
  content : String
  timestamp : Nat
  showSuggestions : Bool
deriving DecidableEq

/-- The component state touched by `handleSendMessage`: the `messages` array
and the `inputMessage` text field. -/
structure ChatState where
  messages : List Message
  inputMessage : String
deriving DecidableEq

/-- The initial assistant greeting (`useState` initialiser, id 1). -/
def initialGreeting : Message :=
  ⟨1, Role.assistant,
   "Hello! I\x27m your AI journaling assistant. How are you feeling today? Would you like to reflect on something?",
   0, true⟩

/-- Initial `ChatInterface` state. -/
def initChatState : ChatState := ⟨[initialGreeting], ""⟩

/-- The canned assistant reply produced for every turn (the source has no
live completion provider; the reply is always this fixed string). -/
def cannedReply : String :=
  "That\x27s a wonderful reflection! Tell me more about how that made you feel."

/-- Resolution `customMessage || inputMessage`: a null or empty `customMessage` falls
through to the input field. -/
def resolveMessage (customMessage : Option String) (s : ChatState) : String :=
  match customMessage with
  | none => s.inputMessage
  | some c => if c = "" then s.inputMessage else c

/-- Result of one `handleSendMessage` call: the state after the synchronous
updates, and the assistant reply scheduled by `setTimeout` (if any).  The
scheduled reply is fully determined at scheduling time; only its append is
delayed. -/
structure SendResult where
  state : ChatState
  pending : Option Message
deriving DecidableEq

/-- Embedding of `handleSendMessage` from `ChatInterface`.  `now` and `later` are the two
`new Date()` reads; `rand` is the `Math.random()` draw used for
`showSuggestions`.  The user message id is `messages.length + 1` and the
delayed reply id is `messages.length + 2`, both computed from the `messages`
list captured by the closure at call time. -/
def handleSendMessage (customMessage : Option String) (s : ChatState)
    (now later : Nat) (rand : ℚ) : SendResult :=
  let messageToSend := resolveMessage customMessage s
  if jsTrim messageToSend = "" then
    ⟨s, none⟩
  else
    let newMessage : Message :=
      ⟨s.messages.length + 1, Role.user, messageToSend, now, false⟩
    let aiResponse : Message :=
      ⟨s.messages.length + 2, Role.assistant, cannedReply, later,
       decide (mkRat 1 2 < rand)⟩
    ⟨⟨s.messages ++ [newMessage], ""⟩, some aiResponse⟩

/-- Firing of the scheduled `setTimeout` callback: the functional update
`setMessages(prev => [...prev, aiResponse])` appends to whatever the message
list is at that moment. -/
def deliver (s : ChatState) (m : Message) : ChatState :=
  ⟨s.messages ++ [m], s.inputMessage⟩

/-- The send button `disabled={inputMessage.trim() === ''}` attribute. -/
def sendDisabled (s : ChatState) : Bool :=
  jsTrim s.inputMessage == ""

/-- Splitting helper for the JavaScript `content.split(/\s+/)` call in
`AITalk`: each maximal whitespace run is one separator match, pieces between
matches are kept, and an empty piece appears at an end that begins or ends
with whitespace.  `acc` holds the reversed characters of the piece being
built. -/
def splitWsAux : List Char → List Char → List (List Char)
  | [], acc => [acc.reverse]
  | c :: cs, acc =>
    if jsWhitespace c then
      acc.reverse :: splitWsAux (cs.dropWhile jsWhitespace) []
    else
      splitWsAux cs (c :: acc)
termination_by l _ => l.length
decreasing_by
  · exact Nat.lt_succ_of_le (List.dropWhile_sublist _).length_le
  · simp

/-- JavaScript `split(/\s+/)` on a character list. -/
def splitWs (l : List Char) : List (List Char) :=
  splitWsAux l []

/-- The word counter rendered by `AITalk`:
`content.split(/\s+/).filter(word => word.length > 0).length`. -/
def wordCount (s : String) : Nat :=
  ((splitWs s.data).filter (fun w => decide (0 < w.length))).length

/-- Specification-side count: the number of maximal non-empty runs of
non-whitespace characters in a character list. -/
def countWordRuns : List Char → Nat
  | [] => 0
  | c :: cs =>
    if jsWhitespace c then countWordRuns cs
    else countWordRuns (cs.dropWhile (fun x => !jsWhitespace x)) + 1
termination_by l => l.length
decreasing_by
  · simp
  · exact Nat.lt_succ_of_le (List.dropWhile_sublist _).length_le

/-- Whether a list of sequence numbers is strictly increasing from each
element to the next. -/
def strictlyIncreasing : List Nat → Bool
  | [] => true
  | [_] => true
  | a :: b :: t => decide (a < b) && strictlyIncreasing (b :: t)

/-- A calendar date at day granularity; `month` is 0-based as in JavaScript.
In `renderMonth` both the cell date and today are normalised to local
midnight with `setHours(0, 0, 0, 0)`, so timestamp comparison of the two
`Date` values orders them lexicographically by (year, month, day). -/
structure SimpleDate where
  year : Nat
  month : Nat
  day : Nat
deriving DecidableEq

/-- The `currentDate > today` comparison of midnight-normalised dates. -/
def dateAfter (a b : SimpleDate) : Bool :=
  if a.year = b.year then
    if a.month = b.month then decide (b.day < a.day)
    else decide (b.month < a.month)
  else decide (b.year < a.year)

/-- Embedding of the JavaScript padding `String(n).padStart(2, ...)` with a zero. -/
def pad2 (n : Nat) : String :=
  if n < 10 then "0" ++ toString n else toString n

/-- Embedding of `formatDate` from `Calendar`: the `YYYY-MM-DD` key string, with the
0-based month shifted to 1-based. -/
def formatDate (year month day : Nat) : String :=
  toString year ++ "-" ++ pad2 (month + 1) ++ "-" ++ pad2 day

/-- The `Calendar` component state touched by `handleDateClick`. -/
structure CalendarUIState where
  selectedDate : Option String
  isPanelOpen : Bool
  showManageMenu : Bool
  showDeleteWarning : Bool
deriving DecidableEq

/-- Initial `Calendar` state: nothing selected, panel closed. -/
def calendarInit : CalendarUIState := ⟨none, false, false, false⟩

/-- Embedding of `handleDateClick` from `Calendar`. -/
def handleDateClick (year month day : Nat) (_ : CalendarUIState) : CalendarUIState :=
  ⟨some (formatDate year month day), true, false, false⟩

/-- Effect of activating a rendered day button:
`onClick={() => !isFuture && handleDateClick(...)}` is a no-op on a future
day and calls `handleDateClick` otherwise. -/
def clickDay (today : SimpleDate) (year month day : Nat)
    (s : CalendarUIState) : CalendarUIState :=
  if dateAfter ⟨year, month, day⟩ today then s
  else handleDateClick year month day s

/-- The rendered attributes of one day button that matter here: the
`disabled={isFuture}` flag and the date `handleDateClick` would receive (none
when the guard short-circuits). -/
structure DayCell where
  disabled : Bool
  clickTarget : Option (Nat × Nat × Nat)
deriving DecidableEq

/-- The day button built by `renderMonth` for one day. -/
def mkDayCell (today : SimpleDate) (year month day : Nat) : DayCell :=
  let isFuture := dateAfter ⟨year, month, day⟩ today
  ⟨isFuture, if isFuture then none else some (year, month, day)⟩

/-- User interactions with the calendar grid that can change
`selectedDate` or the panel. -/
inductive CalEvent where
  | click (year month day : Nat)
  | closePanel

/-- One event step of the `Calendar` component. -/
def calStep (today : SimpleDate) : CalEvent → CalendarUIState → CalendarUIState
  | CalEvent.click y m d, s => clickDay today y m d s
  | CalEvent.closePanel, s => { s with isPanelOpen := false }

/-- States the calendar can reach from its initial state by day clicks and
panel closes, with a fixed current day. -/
inductive CalReachable (today : SimpleDate) : CalendarUIState → Prop
  | init : CalReachable today calendarInit
  | step (e : CalEvent) {s : CalendarUIState} :
      CalReachable today s → CalReachable today (calStep today e s)

/-- The initial `journalEntries` set of `Calendar` (dates that have a journal
entry). -/
def journalEntriesInit : List String :=
  ["2025-01-15", "2025-01-20", "2025-02-05", "2025-02-14", "2025-02-28",
   "2025-03-10", "2025-03-22", "2025-04-03", "2025-04-18", "2025-05-01",
   "2025-05-12", "2025-06-08", "2025-06-25", "2025-07-04", "2025-07-19",
   "2025-08-11", "2025-08-30", "2025-09-15", "2025-10-07", "2025-10-31",
   "2025-11-03", "2025-11-15", "2025-12-10", "2025-12-25"]

/-- One record of the static `journalData` map. -/
structure JournalContent where
  title : String
  mood : String
  duration : String
  content : String
deriving DecidableEq

/-- The static `journalData` object of `Calendar` (it is a plain constant;
no code ever adds to it). -/
def journalData : List (String × JournalContent) :=
  [("2025-01-15", ⟨"New Year Goals", "😊", "25 min",
      "Started the year with renewed energy. Set ambitious goals for health and career."⟩),
   ("2025-02-14", ⟨"Valentine\x27s Day Reflections", "❤️", "15 min",
      "Reflected on relationships and gratitude. Spent quality time with loved ones."⟩),
   ("2025-03-22", ⟨"Spring Has Arrived", "🌸", "20 min",
      "Noticed the first signs of spring. Feeling refreshed and motivated."⟩),
   ("2025-05-01", ⟨"May Day Adventures", "🎉", "30 min",
      "Celebrated new beginnings. Started a new creative project."⟩),
   ("2025-11-03", ⟨"Today\x27s Session", "✨", "18 min",
      "Working on my journaling app. Excited about the progress made today."⟩)]

/-- The fallback record substituted when `journalData[selectedDate]` is
absent. -/
def defaultJournalContent : JournalContent :=
  ⟨"Journal Entry", "📝", "N/A", "No details available for this entry yet."⟩

/-- Embedding of `selectedJournalData` from `Calendar`: the record for a date, or the
fallback. -/
def selectedJournalData (d : String) : JournalContent :=
  match List.lookup d journalData with
  | some j => j
  | none => defaultJournalContent

/-- The Create Entry button handler: add the selected date to the
`journalEntries` set (JavaScript `Set.add`). -/
def createEntry (d : String) (entries : List String) : List String :=
  if d ∈ entries then entries else entries ++ [d]

/-- The application pages routed by `App`. -/
inductive Page where
  | chat
  | calendar
  | aitalk
deriving DecidableEq

/-- The application-level state observable around the End Call control: the
current page, the only journal records the frontend has (the `Calendar`
`journalEntries` set), the `AITalk` call flag, and a failure-report channel.
No code in the repository ever writes `reportedFailure`; the field exists so
that the specification contract about reported failures can be stated. -/
structure FrontendState where
  page : Page
  journalEntries : List String
  isCallActive : Bool
  reportedFailure : Option String
deriving DecidableEq

/-- The synchronous part of `handleEndCall`: `setIsCallActive(false)`. -/
def handleEndCallImmediate (s : FrontendState) : FrontendState :=
  { s with isCallActive := false }

/-- Embedding of `handleBackToChat` from `App`, passed to `AITalk` as `onBack` and invoked
by the 500 ms `setTimeout` inside `handleEndCall`. -/
def handleBackToChat (s : FrontendState) : FrontendState :=
  { s with page := Page.chat }

/-- The complete effect of `handleEndCall` once its timeout has fired: the
call flag is cleared and the app navigates back to the chat page. -/
def handleEndCallSettled (s : FrontendState) : FrontendState :=
  handleBackToChat (handleEndCallImmediate s)

/-- Whether an end-of-session operation produced a journal record: some date
is in the journal entry set afterwards that was not in it before. -/
def journalProduced (before after : FrontendState) : Bool :=
  after.journalEntries.any (fun d => !(before.journalEntries.contains d))

/-- Stated from the specification, for comparison with the code: the end
operation produced a Journal, or a recoverable failure was reported. -/
def endReportsJournalOrFailure (before after : FrontendState) : Prop :=
  journalProduced before after = true ∨ after.reportedFailure ≠ none

/-- Modelled from the spec: the repository contains no Embedding Index
implementation (the frontend under src/ has no retrieval code at all).
Spec section 4.5 defines `insert(user_id, journal_id, vector)` and
`search(user_id, query_vector, k)` over an index partitioned per `user_id`,
ranked by similarity descending with ties broken by recency descending.  An
entry records its insertion sequence number for the recency tie-break. -/
structure IndexEntry where
  userId : Nat
  journalId : Nat
  vector : List ℚ
  seq : Nat
deriving DecidableEq

/-- Modelled from the spec: the Embedding Index state, an entry list plus the
next insertion sequence number. -/
structure EmbeddingIndex where
  entries : List IndexEntry
  nextSeq : Nat
deriving DecidableEq

/-- Modelled from the spec: the empty Embedding Index. -/
def emptyIndex : EmbeddingIndex := ⟨[], 0⟩

/-- Modelled from the spec: `insert(user_id, journal_id, vector)`. -/
def EmbeddingIndex.insert (idx : EmbeddingIndex) (uid jid : Nat)
    (v : List ℚ) : EmbeddingIndex :=
  ⟨idx.entries ++ [⟨uid, jid, v, idx.nextSeq⟩], idx.nextSeq + 1⟩

/-- Ranking order used by `search`: higher similarity first, ties broken by
more recent insertion first.  The similarity metric is passed in abstractly;
the spec fixes cosine similarity as a design choice, and the partition
property holds for any metric. -/
abbrev rankBetter (sim : List ℚ → List ℚ → ℚ) (q : List ℚ)
    (a b : IndexEntry) : Prop :=
  sim q b.vector < sim q a.vector ∨
    (sim q a.vector = sim q b.vector ∧ b.seq ≤ a.seq)

instance rankBetterDecidable (sim : List ℚ → List ℚ → ℚ) (q : List ℚ) :
    DecidableRel (rankBetter sim q) :=
  fun a b =>
    inferInstanceAs (Decidable (sim q b.vector < sim q a.vector ∨
      (sim q a.vector = sim q b.vector ∧ b.seq ≤ a.seq)))

/-- Modelled from the spec: `search(user_id, query_vector, k)` returns the
top-k `(journal_id, similarity)` pairs among the querying user's own
entries. -/
def EmbeddingIndex.search (sim : List ℚ → List ℚ → ℚ) (idx : EmbeddingIndex)
    (uid : Nat) (q : List ℚ) (k : Nat) : List (Nat × ℚ) :=
  let own := idx.entries.filter (fun e => e.userId == uid)
  let ranked := List.insertionSort (rankBetter sim q) own
  (ranked.take k).map (fun e => (e.journalId, sim q e.vector))

/-- A concrete similarity function (dot product) used to exercise the
Embedding Index model on explicit inputs. -/
def dotSim (v w : List ℚ) : ℚ :=
  (List.zipWith (fun a b => a * b) v w).sum

lemma splitWsAux_nil_eq (acc : List Char) : splitWsAux [] acc = [acc.reverse] := by
  rw [splitWsAux]

lemma splitWsAux_cons_eq (c : Char) (cs acc : List Char) :
    splitWsAux (c :: cs) acc =
      if jsWhitespace c then
        acc.reverse :: splitWsAux (cs.dropWhile jsWhitespace) []
      else
        splitWsAux cs (c :: acc) := by
  rw [splitWsAux]

lemma countWordRuns_nil_eq : countWordRuns [] = 0 := by
  rw [countWordRuns]

lemma countWordRuns_cons_eq (c : Char) (cs : List Char) :
    countWordRuns (c :: cs) =
      if jsWhitespace c then countWordRuns cs
      else countWordRuns (cs.dropWhile (fun x => !jsWhitespace x)) + 1 := by
  rw [countWordRuns]

lemma countWordRuns_dropWhile_ws (l : List Char) :
    countWordRuns (l.dropWhile jsWhitespace) = countWordRuns l := by
  induction l with
  | nil => rfl
  | cons c cs ih =>
    by_cases hc : jsWhitespace c = true
    · rw [List.dropWhile_cons_of_pos hc, countWordRuns_cons_eq, if_pos hc, ih]
    · rw [List.dropWhile_cons_of_neg hc]

lemma splitWsAux_filter_count :
    ∀ (n : Nat) (l acc : List Char), l.length ≤ n →
      ((splitWsAux l []).filter (fun w => decide (0 < w.length))).length
          = countWordRuns l ∧
      (acc ≠ [] →
        ((splitWsAux l acc).filter (fun w => decide (0 < w.length))).length
            = countWordRuns (l.dropWhile (fun x => !jsWhitespace x)) + 1) := by
  intro n
  induction n with
  | zero =>
    intro l acc hl
    have hnil : l = [] := List.eq_nil_of_length_eq_zero (Nat.le_zero.mp hl)
    subst hnil
    refine ⟨by simp [splitWsAux_nil_eq, countWordRuns_nil_eq], ?_⟩
    intro hacc
    simp [splitWsAux_nil_eq, countWordRuns_nil_eq, List.filter_cons,
      List.length_pos, hacc]
  | succ n ih =>
    intro l acc hl
    match l with
    | [] =>
      refine ⟨by simp [splitWsAux_nil_eq, countWordRuns_nil_eq], ?_⟩
      intro hacc
      simp [splitWsAux_nil_eq, countWordRuns_nil_eq, List.filter_cons,
        List.length_pos, hacc]
    | c :: cs =>
      have hcs : cs.length ≤ n := by simpa using hl
      have hdw : (cs.dropWhile jsWhitespace).length ≤ n :=
        le_trans (List.dropWhile_sublist _).length_le hcs
      constructor
      · by_cases hc : jsWhitespace c = true
        · rw [splitWsAux_cons_eq, if_pos hc, countWordRuns_cons_eq, if_pos hc,
            ← countWordRuns_dropWhile_ws cs]
          simpa using (ih (cs.dropWhile jsWhitespace) [] hdw).1
        · rw [splitWsAux_cons_eq, if_neg hc, countWordRuns_cons_eq, if_neg hc]
          exact (ih cs [c] hcs).2 (by simp)
      · intro hacc
        by_cases hc : jsWhitespace c = true
        · rw [splitWsAux_cons_eq, if_pos hc]
          have hdrop : (c :: cs).dropWhile (fun x => !jsWhitespace x) = c :: cs :=
            List.dropWhile_cons_of_neg (by simp [hc])
          rw [hdrop, countWordRuns_cons_eq, if_pos hc,
            ← countWordRuns_dropWhile_ws cs]
          have h1 := (ih (cs.dropWhile jsWhitespace) [] hdw).1
          have hkeep : (fun w => decide (0 < w.length)) acc.reverse = true := by
            simp [List.length_pos, hacc]
          rw [List.filter_cons, if_pos hkeep, List.length_cons, h1]
        · rw [splitWsAux_cons_eq, if_neg hc]
          have hdrop : (c :: cs).dropWhile (fun x => !jsWhitespace x)
              = cs.dropWhile (fun x => !jsWhitespace x) :=
            List.dropWhile_cons_of_pos (by simp [hc])
          rw [hdrop]
          exact (ih cs (c :: acc) hcs).2 (by simp)

lemma countWordRuns_all_ws (l : List Char) (h : l.all jsWhitespace = true) :
    countWordRuns l = 0 := by
  induction l with
  | nil => exact countWordRuns_nil_eq
  | cons c cs ih =>
    simp only [List.all_cons, Bool.and_eq_true] at h
    rw [countWordRuns_cons_eq, if_pos h.1]
    exact ih h.2

lemma lookup_isSome_mem_keys {β : Type} (d : String) :
    ∀ l : List (String × β), (List.lookup d l).isSome = true → d ∈ l.map Prod.fst := by
  intro l
  induction l with
  | nil => intro h; simp [List.lookup] at h
  | cons p t ih =>
    obtain ⟨k, v⟩ := p
    intro h
    by_cases hd : d = k
    · simp [hd]
    · have hb : (d == k) = false := beq_eq_false_iff_ne.mpr hd
      rw [List.lookup, hb] at h
      exact List.mem_cons_of_mem _ (ih h)

/-- C10: the displayed word count
`content.split(/\s+/).filter(word => word.length > 0).length` equals the
number of maximal non-empty runs of non-whitespace characters in the content,
and in particular is 0 when the content is all whitespace (hence also for the
empty string). -/
theorem word_count_counts_runs (s : String) :
    wordCount s = countWordRuns s.data ∧
    (s.data.all jsWhitespace = true → wordCount s = 0) := by
  have h : wordCount s = countWordRuns s.data :=
    (splitWsAux_filter_count s.data.length s.data [] le_rfl).1
  exact ⟨h, fun hws => h.trans (countWordRuns_all_ws _ hws)⟩

/-- Witness for C10 at the whitespace-only content of two spaces. -/
theorem word_count_counts_runs_witness :
    wordCount "  " = countWordRuns "  ".data ∧ wordCount "  " = 0 :=
  ⟨(word_count_counts_runs "  ").1, (word_count_counts_runs "  ").2 (by decide)⟩

/-- C3 counterexample: from a session with no journal entries, the End Call
control completes (the call flag is cleared and the app navigates back to
chat) while no journal record was produced and no failure was reported, so
ending reports success with neither a journal nor a failure. -/
theorem end_call_no_journal_no_failure :
    handleEndCallSettled ⟨Page.aitalk, [], true, none⟩
        = ⟨Page.chat, [], false, none⟩ ∧
    ¬ endReportsJournalOrFailure ⟨Page.aitalk, [], true, none⟩
        (handleEndCallSettled ⟨Page.aitalk, [], true, none⟩) := by
  refine ⟨rfl, ?_⟩
  intro h
  rcases h with h | h
  · simp [journalProduced, handleEndCallSettled, handleEndCallImmediate,
      handleBackToChat] at h
  · simp [handleEndCallSettled, handleEndCallImmediate, handleBackToChat] at h

/-- C3 amended: `handleEndCall` unconditionally deactivates the call and
navigates back to the chat page once its 500 ms timeout fires; it never
creates a journal record and never reports a failure (both are left exactly
as they were). -/
theorem end_call_frame_effects (s : FrontendState) :
    (handleEndCallSettled s).page = Page.chat ∧
    (handleEndCallSettled s).isCallActive = false ∧
    (handleEndCallSettled s).journalEntries = s.journalEntries ∧
    (handleEndCallSettled s).reportedFailure = s.reportedFailure :=
  ⟨rfl, rfl, rfl, rfl⟩

/-- C4 counterexample: the date 2025-01-20 is in the initial `journalEntries`
set while the `journalData` map has no record for it, so a date can be a
journal entry without corresponding journal data. -/
theorem entry_without_journal_data :
    "2025-01-20" ∈ journalEntriesInit ∧
    List.lookup "2025-01-20" journalData = none := by
  decide

/-- C4 amended: only one direction of the correspondence holds, and only for
the initial state: every date with a record in `journalData` is initially in
`journalEntries`, but a date can be in `journalEntries` without journal
data, in which case the panel substitutes the fixed placeholder record. -/
theorem journal_data_implies_entry :
    (∀ d : String, (List.lookup d journalData).isSome = true →
      d ∈ journalEntriesInit) ∧
    (∀ d : String, List.lookup d journalData = none →
      selectedJournalData d = defaultJournalContent) := by
  constructor
  · intro d h
    have hm := lookup_isSome_mem_keys d journalData h
    simp [journalData] at hm
    rcases hm with h1 | h1 | h1 | h1 | h1 <;> subst h1 <;> decide
  · intro d h
    simp [selectedJournalData, h]

/-- Witness for C4: the date 2025-01-15 has journal data and is an entry;
the date 2025-01-20 has no data and gets the placeholder. -/
theorem journal_data_implies_entry_witness :
    "2025-01-15" ∈ journalEntriesInit ∧
    selectedJournalData "2025-01-20" = defaultJournalContent :=
  ⟨journal_data_implies_entry.1 "2025-01-15" (by decide),
   journal_data_implies_entry.2 "2025-01-20" (by decide)⟩

/-- C1 failing run: with the transcript at the initial greeting (id 1), the
user submits a first message and then a second one before the first delayed
reply has been appended.  The first call schedules its reply with id 3
(computed from the stale captured list of length 1), but by the time it is
appended the second user message already carries id 3: the id sequence is
1, 2, 3, 3, which is not strictly increasing. -/
theorem chat_interleaving_duplicates_message_id :
    (handleSendMessage none ⟨[initialGreeting], "first"⟩ 10 11 (mkRat 3 4)).pending
        = some ⟨3, Role.assistant, cannedReply, 11, true⟩ ∧
    ((deliver
        (handleSendMessage none
          ⟨(handleSendMessage none ⟨[initialGreeting], "first"⟩ 10 11 (mkRat 3 4)).state.messages,
           "second"⟩ 12 13 (mkRat 3 4)).state
        ⟨3, Role.assistant, cannedReply, 11, true⟩).messages.map Message.id)
      = [1, 2, 3, 3] ∧
    strictlyIncreasing [1, 2, 3, 3] = false := by
  refine ⟨by decide, by decide, by decide⟩

/-- C2: for any submission whose resolved text has non-empty trim, exactly
one user message is appended synchronously (and the input cleared), exactly
one assistant reply is scheduled, its content is the canned fallback string,
and appending it afterwards extends the transcript by exactly that reply, so
the turn never fails and further submissions remain possible. -/
theorem submit_message_appends_user_and_assistant
    (c : Option String) (s : ChatState) (now later : Nat) (r : ℚ)
    (h : jsTrim (resolveMessage c s) ≠ "") :
    (handleSendMessage c s now later r).state.messages
        = s.messages ++ [⟨s.messages.length + 1, Role.user, resolveMessage c s, now, false⟩] ∧
    (handleSendMessage c s now later r).state.inputMessage = "" ∧
    (handleSendMessage c s now later r).pending
        = some ⟨s.messages.length + 2, Role.assistant, cannedReply, later,
            decide (mkRat 1 2 < r)⟩ ∧
    (deliver (handleSendMessage c s now later r).state
        ⟨s.messages.length + 2, Role.assistant, cannedReply, later,
          decide (mkRat 1 2 < r)⟩).messages
      = s.messages ++
          [⟨s.messages.length + 1, Role.user, resolveMessage c s, now, false⟩,
           ⟨s.messages.length + 2, Role.assistant, cannedReply, later,
             decide (mkRat 1 2 < r)⟩] := by
  simp [handleSendMessage, deliver, h]

/-- Witness for C2 at the input text `hello`. -/
theorem submit_message_appends_witness :
    (handleSendMessage none ⟨[initialGreeting], "hello"⟩ 1 2 0).state.messages
      = [initialGreeting] ++
          [⟨([initialGreeting] : List Message).length + 1, Role.user,
            resolveMessage none ⟨[initialGreeting], "hello"⟩, 1, false⟩] :=
  (submit_message_appends_user_and_assistant none ⟨[initialGreeting], "hello"⟩
    1 2 0 (by decide)).1

/-- C5 counterexample: two runs of `handleSendMessage` with identical prior
message list and identical input text but different `Math.random()` draws
produce different scheduled assistant messages (the `showSuggestions`
decision differs), so the fallback reply is not deterministic as claimed. -/
theorem fallback_reply_random_suggestions :
    (handleSendMessage none ⟨[initialGreeting], "hi"⟩ 10 11 (mkRat 3 4)).pending ≠
    (handleSendMessage none ⟨[initialGreeting], "hi"⟩ 10 11 (mkRat 1 4)).pending := by
  decide

/-- C5 amended: everything about the scheduled assistant reply except the
`showSuggestions` flag is deterministic: two runs with identical prior
message list and input text (and clock reads) agree on the reply's id, role,
content and timestamp whatever the two random draws are. -/
theorem fallback_reply_content_deterministic
    (c : Option String) (s : ChatState) (now later : Nat) (r r' : ℚ) :
    ((handleSendMessage c s now later r).pending.map
        (fun m => (m.id, m.role, m.content, m.timestamp))) =
    ((handleSendMessage c s now later r').pending.map
        (fun m => (m.id, m.role, m.content, m.timestamp))) := by
  by_cases h : jsTrim (resolveMessage c s) = "" <;>
    simp [handleSendMessage, h]

/-- C6: every transcript update performed by `handleSendMessage` is an
append: the synchronous update leaves the existing messages as an unchanged
prefix and adds at most one message at the end, and the delayed functional
update appends exactly one message to whatever list it finds. -/
theorem transcript_append_only
    (c : Option String) (s : ChatState) (now later : Nat) (r : ℚ) :
    ((handleSendMessage c s now later r).state.messages.take s.messages.length
        = s.messages) ∧
    ((handleSendMessage c s now later r).state.messages = s.messages ∨
      ∃ m, (handleSendMessage c s now later r).state.messages
          = s.messages ++ [m]) ∧
    (∀ q m, (deliver q m).messages = q.messages ++ [m] ∧
      (deliver q m).messages.take q.messages.length = q.messages) := by
  refine ⟨?_, ?_, ?_⟩
  · by_cases h : jsTrim (resolveMessage c s) = "" <;>
      simp [handleSendMessage, h, List.take_left]
  · by_cases h : jsTrim (resolveMessage c s) = ""
    · left; simp [handleSendMessage, h]
    · right
      refine ⟨⟨s.messages.length + 1, Role.user, resolveMessage c s, now, false⟩, ?_⟩
      simp [handleSendMessage, h]
  · intro q m
    exact ⟨rfl, by simp [deliver, List.take_left]⟩

/-- C8: when the resolved message text trims to the empty string the whole
call returns with the state untouched and no assistant reply scheduled, and
the send button is disabled whenever the input field trims to empty. -/
theorem blank_message_no_op
    (c : Option String) (s : ChatState) (now later : Nat) (r : ℚ) :
    (jsTrim (resolveMessage c s) = "" →
      handleSendMessage c s now later r = ⟨s, none⟩) ∧
    (jsTrim s.inputMessage = "" → sendDisabled s = true) := by
  constructor
  · intro h
    simp [handleSendMessage, h]
  · intro h
    simp [sendDisabled, h]

/-- Witness for C8 at a whitespace-only input of two spaces. -/
theorem blank_message_no_op_witness :
    handleSendMessage none ⟨[initialGreeting], "  "⟩ 1 2 0
        = ⟨⟨[initialGreeting], "  "⟩, none⟩ ∧
    sendDisabled ⟨[initialGreeting], "  "⟩ = true :=
  ⟨(blank_message_no_op none ⟨[initialGreeting], "  "⟩ 1 2 0).1 (by decide),
   (blank_message_no_op none ⟨[initialGreeting], "  "⟩ 1 2 0).2 (by decide)⟩

/-- C9: a day strictly after the current day (at day granularity) is
rendered disabled with a click that never reaches `handleDateClick`, and in
every state the calendar can reach by clicks and panel closes the selected
date is a formatted non-future day, so a future date never becomes the
selected date. -/
theorem future_dates_unclickable (today : SimpleDate) :
    (∀ year month day, dateAfter ⟨year, month, day⟩ today = true →
      (mkDayCell today year month day).disabled = true ∧
      ∀ s, clickDay today year month day s = s) ∧
    (∀ s, CalReachable today s → ∀ str, s.selectedDate = some str →
      ∃ year month day, str = formatDate year month day ∧
        dateAfter ⟨year, month, day⟩ today = false) := by
  constructor
  · intro y m d h
    refine ⟨by simp [mkDayCell, h], fun s => ?_⟩
    simp [clickDay, h]
  · intro s hs
    induction hs with
    | init => intro str h; simp [calendarInit] at h
    | step e hs ih =>
      intro str h
      cases e with
      | click y m d =>
        by_cases hf : dateAfter ⟨y, m, d⟩ today = true
        · rw [calStep, clickDay, if_pos hf] at h
          exact ih str h
        · rw [calStep, clickDay, if_neg hf, handleDateClick] at h
          simp only [Option.some.injEq] at h
          exact ⟨y, m, d, h.symm, by simpa using hf⟩
      | closePanel =>
        exact ih str h

/-- Witness for C9 with today 2025-11-03 (0-based month 10): Christmas 2025
is rendered disabled, and after clicking 2025-01-05 (0-based month 0) the
selected date is that non-future day. -/
theorem future_dates_unclickable_witness :
    (mkDayCell ⟨2025, 10, 3⟩ 2025 11 25).disabled = true ∧
    (∃ year month day, "2025-01-05" = formatDate year month day ∧
      dateAfter ⟨year, month, day⟩ ⟨2025, 10, 3⟩ = false) :=
  ⟨((future_dates_unclickable ⟨2025, 10, 3⟩).1 2025 11 25 (by decide)).1,
   (future_dates_unclickable ⟨2025, 10, 3⟩).2
     (calStep ⟨2025, 10, 3⟩ (CalEvent.click 2025 0 5) calendarInit)
     (CalReachable.step (CalEvent.click 2025 0 5) CalReachable.init)
     "2025-01-05" (by decide)⟩

/-- C7 (spec-modelled): `search` only ever returns pairs whose journal id
comes from an index entry belonging to the querying user, for every index
state (hence every state reachable by any sequence of inserts), every
similarity metric, every query vector and every k. -/
theorem search_user_partition (sim : List ℚ → List ℚ → ℚ)
    (idx : EmbeddingIndex) (uid : Nat) (q : List ℚ) (k : Nat) (p : Nat × ℚ)
    (h : p ∈ EmbeddingIndex.search sim idx uid q k) :
    ∃ e, e ∈ idx.entries ∧ e.userId = uid ∧ e.journalId = p.1 := by
  simp only [EmbeddingIndex.search] at h
  obtain ⟨e, he, hpe⟩ := List.mem_map.mp h
  have he2 : e ∈ idx.entries.filter (fun x => x.userId == uid) :=
    (List.perm_insertionSort _ _).subset (List.take_subset _ _ he)
  obtain ⟨hmem, huid⟩ := List.mem_filter.mp he2
  refine ⟨e, hmem, by simpa using huid, ?_⟩
  rw [← hpe]

/-- Witness for C7: in an index holding one journal for user 1 and one for
user 2, a search by user 1 returns a pair backed by an entry of user 1. -/
theorem search_user_partition_witness :
    ∃ e, e ∈ ((emptyIndex.insert 1 10 [1, 0]).insert 2 20 [0, 1]).entries ∧
      e.userId = 1 ∧ e.journalId = 10 :=
  search_user_partition dotSim ((emptyIndex.insert 1 10 [1, 0]).insert 2 20 [0, 1])
    1 [1, 0] 3 (10, 1)
    (by simp [EmbeddingIndex.search, EmbeddingIndex.insert, emptyIndex,
      List.insertionSort, List.orderedInsert, dotSim])
